import Mathlib

/-!
Verification of the aranet4-mcp-server data layer.

Shallow embedding, in Lean 4, of the measurement database and of the query /
ingestion operations of the `aranet4-mcp-server` repository (current source:
`src/aranet.py`, class `Aranet4Manager`, and `src/server.py`; the repository
also carries older generations of the same module at the top level, noted
where a claim depends on the difference).

The SQLite table `measurements(device TEXT, timestamp INTEGER,
temperature REAL, humidity INTEGER, pressure REAL, CO2 INTEGER,
PRIMARY KEY(device, timestamp))` is modelled as a `List Row`; SQLite REAL
columns are modelled as `ℚ` (no float arithmetic is performed by any claim),
INTEGER columns as `ℤ`, TEXT as `String`.  SQL queries are modelled as
filter / sort / take over the list, and `INSERT OR IGNORE` as a
primary-key-guarded append.
-/

/-- A row of the `measurements` table (schema created in
`Aranet4Manager.db_path`, src/aranet.py). -/
structure Row where
  device : String
  timestamp : Int
  temperature : Rat
  humidity : Int
  pressure : Rat
  co2 : Int
deriving DecidableEq, Repr

/-- One log entry returned by the BLE history fetch
(`aranet4.client._all_records(...).value` in `fetch_new_data`): the fields of
it that `fetch_new_data` reads.  `date` is the entry timestamp in epoch
seconds (`entry.date.timestamp()`). -/
structure Entry where
  date : Int
  temperature : Rat
  humidity : Int
  pressure : Rat
  co2 : Int
deriving DecidableEq, Repr

/-- Python `rows[::2]`: keep the elements at indices 0, 2, 4, ... -/
def everySecond : List α → List α
  | [] => []
  | [a] => [a]
  | a :: _ :: rest => a :: everySecond rest

/-- The loop `while len(rows) > limit: rows = rows[::2]`
(src/aranet.py, `get_data_by_timerange`), unrolled with explicit fuel:
`none` means the given number of iterations did not reach the exit
condition.  `limit` is a Python `int`, so it is modelled as `ℤ`. -/
def decimateFuel : Nat → Int → List α → Option (List α)
  | 0, _, _ => none
  | fuel + 1, limit, rows =>
    if (rows.length : Int) > limit then decimateFuel fuel limit (everySecond rows)
    else some rows

/-- Result of `k` passes of `everySecond` (the state of `rows` after `k` iterations of
the decimation loop). -/
def iterHalve : Nat → List α → List α
  | 0, l => l
  | k + 1, l => iterHalve k (everySecond l)

/-- Length after `k` halving passes, as a function of the starting length. -/
def halveLen : Nat → Nat → Nat
  | 0, n => n
  | k + 1, n => halveLen k ((n + 1) / 2)

/-! ## The measurements table and `INSERT OR IGNORE` ingestion -/

/-- The primary-key predicate: `q` has key `(d, t)` in the sense of
`PRIMARY KEY(device, timestamp)`. -/
def keyEq (d : String) (t : Int) (q : Row) : Bool :=
  q.device == d && q.timestamp == t

/-- Whether some row of `db` already carries the primary key of `r`. -/
def keyMem (r : Row) (db : List Row) : Bool :=
  db.any (keyEq r.device r.timestamp)

/-- Number of rows of `db` with primary key `(d, t)`. -/
def countKey (db : List Row) (d : String) (t : Int) : Nat :=
  (db.filter (keyEq d t)).length

/-- One `INSERT OR IGNORE INTO measurements VALUES(...)` for one row: on a
primary-key conflict the statement is a silent no-op, otherwise the row is
appended. -/
def insertOrIgnore (db : List Row) (r : Row) : List Row :=
  if keyMem r db then db else db ++ [r]

/-- The statement `cur.executemany('INSERT OR IGNORE INTO measurements VALUES(?, ?, ?, ?, ?, ?)', data)`
(src/aranet.py, `fetch_new_data`): the rows of `data` inserted in order. -/
def insertMany (db : List Row) (data : List Row) : List Row :=
  data.foldl insertOrIgnore db

/-- The row built from a history entry in `fetch_new_data`:
`(self.device_name, entry.date.timestamp(), entry.temperature, entry.humidity, entry.pressure, entry.co2)`. -/
def mkRow (deviceName : String) (e : Entry) : Row :=
  ⟨deviceName, e.date, e.temperature, e.humidity, e.pressure, e.co2⟩

/-- The `data` list built by `fetch_new_data` from the fetched history:
entries with `entry.co2 < 0` are skipped (`continue`), the rest become rows
in order. -/
def buildData (deviceName : String) (history : List Entry) : List Row :=
  history.filterMap (fun e => if e.co2 < 0 then none else some (mkRow deviceName e))

/-! ## The BLE retry loop of `fetch_new_data` -/

/-- Outcome of one attempt of
`await aranet4.client._all_records(self.device_mac, entry_filter, False)`:
either a history (its `.value` list of entries) or a raised exception's
message. -/
inductive FetchOutcome where
  | ok (history : List Entry)
  | err (msg : String)
deriving DecidableEq, Repr

/-- Python `'\n\n'.join(errors)`. -/
def joinErrors : List String → String
  | [] => ""
  | [e] => e
  | e :: rest => e ++ "\n\n" ++ joinErrors rest

/-- The failure report returned by `fetch_new_data` when every attempt
raised (src/aranet.py):
`f"Failed to fetch measurements from '{name}' with mac '{mac} in range: ({start}, {end})\n\n# Errors\n{joined}"`
(the unbalanced quote after the mac is in the source). -/
def failureReport (deviceName deviceMac rangeStart rangeEnd : String) (errors : List String) : String :=
  "Failed to fetch measurements from '" ++ deviceName ++ "' with mac '" ++ deviceMac
    ++ " in range: (" ++ rangeStart ++ ", " ++ rangeEnd ++ ")\n" ++ "\n" ++ "# Errors\n"
    ++ joinErrors errors

/-- The first line of the success message of `fetch_new_data` (the appended
markdown table rendering, which is a pure formatting concern delegated to
`strftime` and the timezone library, is not modelled). -/
def fetchMsg (count : Nat) (rangeStart rangeEnd : String) : String :=
  "Fetched " ++ toString count ++ " measurements in range: (" ++ rangeStart ++ ", "
    ++ rangeEnd ++ ") and added to local sqlite db."

/-- The loop `for attempt in range(num_retries): try: history = ...; break
except Exception as e: errors.append(str(e)); continue`, with `outcomes i`
the result the BLE call would produce on the `i`-th attempt.  Returns the
fetched history (if some attempt succeeded) and the accumulated error
messages. -/
def retryAux (outcomes : Nat → FetchOutcome) : Nat → Nat → List String → Option (List Entry) × List String
  | 0, _, errors => (none, errors)
  | rem + 1, i, errors =>
    match outcomes i with
    | .ok history => (some history, errors)
    | .err e => retryAux outcomes rem (i + 1) (errors ++ [e])

/-- Function `fetch_new_data` (src/aranet.py, class `Aranet4Manager`), as a function
of the database state, the configured device identity, the formatted attempt
range, and the BLE attempt outcomes.  Returns the new database state and the
returned string.  If every attempt fails, the database is untouched and a
failure report is returned (nothing is raised); otherwise the surviving
entries are inserted with `INSERT OR IGNORE`. -/
def fetch_new_data (db : List Row) (deviceName deviceMac rangeStart rangeEnd : String)
    (outcomes : Nat → FetchOutcome) (numRetries : Nat) : List Row × String :=
  match retryAux outcomes numRetries 0 [] with
  | (none, errors) => (db, failureReport deviceName deviceMac rangeStart rangeEnd errors)
  | (some history, _) =>
    let data := buildData deviceName history
    (insertMany db data, fetchMsg data.length rangeStart rangeEnd)

/-! ## `get_last_timestamp` -/

/-- The timestamps of the rows of `device_name`, in table order. -/
def deviceTimestamps (db : List Row) (deviceName : String) : List Int :=
  (db.filter (fun r => r.device == deviceName)).map (fun r => r.timestamp)

/-- SQL `SELECT MAX(timestamp) FROM measurements WHERE device = ?`: the SQL
aggregate `MAX` over the matching rows, `NULL` (here `none`) when no row
matches. -/
def sqlMaxTimestamp (db : List Row) (deviceName : String) : Option Int :=
  (deviceTimestamps db deviceName).foldl
    (fun acc t => match acc with | none => some t | some m => some (max m t)) none

/-- Function `get_last_timestamp` (src/aranet.py): the maximal stored timestamp of the
device, or `none` when the device has no rows.  The Python function wraps the
returned epoch second in a timezone-aware `datetime`
(`datetime.fromtimestamp(row[0], tz=timezone.utc).astimezone(...)`), a
bijective re-presentation of the same instant that is not modelled. -/
def get_last_timestamp (db : List Row) (deviceName : String) : Option Int :=
  sqlMaxTimestamp db deviceName

/-! ## The sensor selector (`sanitize_sensors`, src/aranet.py)

The Python code applies `s.strip().lower().replace('co2', 'CO2')` to each
comma-separated piece of the selector.  The Lean core string functions of
this toolchain do not reduce in the kernel, so the exact Python string
primitives are re-implemented over `List Char`. -/

/-- Prefix test over characters (Python `startswith`). -/
def startsWithChars : List Char → List Char → Bool
  | [], _ => true
  | _ :: _, [] => false
  | p :: ps, c :: cs => p == c && startsWithChars ps cs

/-- Python `str.replace(pat, rep)`: left-to-right, non-overlapping
replacement of every occurrence (`pat` non-empty here; the fuel is the
length of the scanned text, enough since each step consumes at least one
character). -/
def replaceChars (pat rep : List Char) : Nat → List Char → List Char
  | 0, cs => cs
  | _ + 1, [] => []
  | fuel + 1, c :: cs =>
    if startsWithChars pat (c :: cs) then
      rep ++ replaceChars pat rep fuel (List.drop pat.length (c :: cs))
    else
      c :: replaceChars pat rep fuel cs

/-- Python `str.strip()`: whitespace removed from both ends. -/
def stripChars (cs : List Char) : List Char :=
  ((cs.dropWhile Char.isWhitespace).reverse.dropWhile Char.isWhitespace).reverse

/-- Python `s.strip().lower().replace('co2', 'CO2')` on one selector piece. -/
def cleanPiece (s : String) : String :=
  let lowered := (stripChars s.data).map Char.toLower
  ⟨replaceChars "co2".data "CO2".data lowered.length lowered⟩

/-- Python `sensors.split(",")`: split at every comma, empty pieces kept. -/
def splitCommaAux : List Char → List Char → List String
  | [], acc => [⟨acc.reverse⟩]
  | c :: rest, acc =>
    if c == ',' then ⟨acc.reverse⟩ :: splitCommaAux rest [] else splitCommaAux rest (c :: acc)

def splitComma (s : String) : List String :=
  splitCommaAux s.data []

/-- The set `self.sensor_plot_config.keys()`: the fixed set of valid sensor names. -/
def valid_options : List String :=
  ["temperature", "humidity", "pressure", "CO2"]

/-- The `cleaned` list of `sanitize_sensors`. -/
def cleanedSensors (sensors : String) : List String :=
  (splitComma sensors).map cleanPiece

/-- Flag `at_least_one_unknown` in `sanitize_sensors`. -/
def hasUnknownSensor (sensors : String) : Bool :=
  (cleanedSensors sensors).any (fun s => !(valid_options.contains s))

/-- The guard of `sanitize_sensors`:
`if sensors != "all" and at_least_one_unknown: raise InvalidSensorType(...)`. -/
def sanitizeRaises (sensors : String) : Bool :=
  sensors != "all" && hasUnknownSensor sensors

/-! ## The SQL row selections of the two queries -/

/-- SQL `ORDER BY timestamp` (ascending). -/
def byTimestampAsc : Row → Row → Prop := fun a b => a.timestamp ≤ b.timestamp

instance : DecidableRel byTimestampAsc :=
  fun a b => inferInstanceAs (Decidable (a.timestamp ≤ b.timestamp))

/-- SQL `ORDER BY timestamp DESC`. -/
def byTimestampDesc : Row → Row → Prop := fun a b => b.timestamp ≤ a.timestamp

instance : DecidableRel byTimestampDesc :=
  fun a b => inferInstanceAs (Decidable (b.timestamp ≤ a.timestamp))

/-- The row set of
`SELECT ... FROM measurements WHERE timestamp >= ? AND timestamp <= ? ORDER BY timestamp`
(`get_data_by_timerange`).  The `WHERE` clause mentions only `timestamp`; no
condition is placed on `device`.  The `SELECT` column projection is a
per-row re-presentation and is not modelled: results are kept as full rows. -/
def rowsInRange (db : List Row) (s e : Int) : List Row :=
  List.insertionSort byTimestampAsc
    (db.filter (fun r => s ≤ r.timestamp && r.timestamp ≤ e))

/-- The row set of
`SELECT ... FROM measurements WHERE timestamp <= ? ORDER BY timestamp DESC LIMIT ?`
(`get_recent_data`).  Again no condition on `device`. -/
def rowsRecent (db : List Row) (now : Int) (limit : Nat) : List Row :=
  (List.insertionSort byTimestampDesc
    (db.filter (fun r => r.timestamp ≤ now))).take limit

/-! ## `get_data_by_timerange` (src/aranet.py, class `Aranet4Manager`) -/

/-- The observable outcome of `Aranet4Manager.get_data_by_timerange`:
`ok rows` (a normal return carrying the selected, decimated rows),
`noData` (the `return None` taken when no row matched),
`invalidDate text` (the raised `InvalidDateFormat`, carrying the offending
text; the embedded Python exception message is produced by the standard
library), `invalidSensor s` (the raised `InvalidSensorType`), and `hang`
(the decimation `while` loop never exits). -/
inductive TimerangeOutcome where
  | ok (rows : List Row)
  | noData
  | invalidDate (text : String)
  | invalidSensor (sensors : String)
  | hang
deriving DecidableEq, Repr

/-- Function `Aranet4Manager.get_data_by_timerange`, with `parse` standing for the
composition `datetime.fromisoformat` + timezone normalisation +
`int(...timestamp())` applied to a date-time string (an external-library
pipeline: `none` models the `ValueError` of `fromisoformat`, `some t` the
resulting UTC epoch second).  Control flow follows the source: date parsing
first (raising `InvalidDateFormat` on failure), then `sanitize_sensors`,
then the SQL selection, then the `return None` on an empty row set, then
the halving decimation loop.  Fuel `rows.length + 1` is exact:
`decimateFuel_spec` shows it suffices whenever `limit ≥ 1`, and
`decimateFuel_diverges` shows no fuel helps otherwise, so `hang` is reached
exactly when the Python loop runs forever. -/
def get_data_by_timerange (parse : String → Option Int) (db : List Row)
    (startText endText sensors : String) (limit : Int) : TimerangeOutcome :=
  match parse startText with
  | none => .invalidDate startText
  | some s =>
    match parse endText with
    | none => .invalidDate endText
    | some e =>
      if sanitizeRaises sensors then .invalidSensor sensors
      else
        let rows := rowsInRange db s e
        if rows.isEmpty then .noData
        else
          match decimateFuel (rows.length + 1) limit rows with
          | some res => .ok res
          | none => .hang

/-! ## The tool handlers of src/server.py -/

/-- The attribute names defined by `class Aranet4Manager` (src/aranet.py):
its properties, instance attributes and methods.  Python resolves
`aranet4manager.<name>` against exactly this set (the class has no base
class besides `object` and no `__getattr__`). -/
def managerAttrs : List String :=
  ["sensor_plot_config", "device_name", "device_mac", "use_local_tz",
   "local_timezone", "db_path", "_format_data_as_markdown",
   "sanitize_sensors", "scan_devices", "get_database_stats",
   "get_last_timestamp", "fetch_new_data", "get_recent_data",
   "get_data_by_timerange", "_generate_plot"]

/-- What a tool handler of src/server.py produces: a returned string, a
returned image, or an exception of the named kind escaping the handler
body. -/
inductive ToolReply where
  | text (s : String)
  | image (path : String)
  | exn (kind : String)
deriving DecidableEq, Repr

/-- The `get_recent_data` tool handler (src/server.py).  Its first
statement, before any `try`, is
`sensors, all_valid = aranet4manager.validate_sensors(sensors)`; the class
defines no attribute of that name, so attribute resolution raises
`AttributeError` there for every argument value.  The branch following the
lookup (the invalid-selector report of lines 256-258 and the `try` body) is
unreachable and is therefore represented by the lookup-succeeded arm below,
which the membership test never selects. -/
def get_recent_data_tool (_limit : Int) (_sensors : String) (_outputAsPlot : Bool) : ToolReply :=
  if "validate_sensors" ∈ managerAttrs then
    .text "unreachable: Aranet4Manager defines no validate_sensors"
  else
    .exn "AttributeError"

/-- The `get_data_by_timerange` tool handler (src/server.py).  Its first
statement, before any `try` and before the selector check, is
`valid_sensors = aranet4manager.list_sensors()`; no attribute of that name
exists, so `AttributeError` is raised for every argument value. -/
def get_data_by_timerange_tool (_startText _endText _sensors : String) (_limit : Int)
    (_outputAsPlot : Bool) : ToolReply :=
  if "list_sensors" ∈ managerAttrs then
    .text "unreachable: Aranet4Manager defines no list_sensors"
  else
    .exn "AttributeError"
/-! ## Concrete inputs used by the witness theorems -/

/-- A sample row. -/
def wRow : Row := ⟨"kitchen", 0, 21, 40, 1000, 400⟩

/-- A 401-row table, all rows inside the window `[0, 0]`. -/
def wdb401 : List Row := List.replicate 401 wRow

/-- A three-row, two-device table (timestamps 100, 150, 200). -/
def twoDeviceDb : List Row :=
  [⟨"kitchen", 100, 19, 50, 1002, 400⟩,
   ⟨"bedroom", 150, 20, 45, 1001, 420⟩,
   ⟨"kitchen", 200, 21, 40, 1000, 999⟩]

/-- A three-row, one-device table for the watermark witness. -/
def wdbStamps : List Row :=
  [⟨"kitchen", 100, 19, 50, 1002, 400⟩,
   ⟨"kitchen", 300, 21, 40, 1000, 999⟩,
   ⟨"kitchen", 200, 20, 45, 1001, 420⟩]

/-- A date-time parser stub that accepts everything as epoch second 0
(stands for the external `datetime.fromisoformat` pipeline in witnesses). -/
def wParseAll : String → Option Int := fun _ => some 0

/-- A date-time parser stub that rejects everything. -/
def wParseNone : String → Option Int := fun _ => none
theorem everySecond_length (l : List α) : (everySecond l).length = (l.length + 1) / 2 := by
  induction l using everySecond.induct with
  | case1 => simp [everySecond]
  | case2 a => simp [everySecond]
  | case3 a b rest ih => simp [everySecond, ih]; omega

theorem everySecond_get? (l : List α) (i : Nat) :
    (everySecond l).get? i = l.get? (2 * i) := by
  induction l using everySecond.induct generalizing i with
  | case1 => simp [everySecond]
  | case2 a =>
    match i with
    | 0 => rfl
    | i + 1 => simp [everySecond]; omega
  | case3 a b rest ih =>
    match i with
    | 0 => rfl
    | i + 1 =>
      have h2 : 2 * (i + 1) = 2 * i + 1 + 1 := by ring
      simp only [everySecond, h2, List.get?_cons_succ, ih]

theorem everySecond_ne_nil (l : List α) (h : l ≠ []) : everySecond l ≠ [] := by
  match l with
  | [] => exact absurd rfl h
  | [a] => simp [everySecond]
  | a :: b :: rest => simp [everySecond]

theorem iterHalve_get? (k : Nat) (l : List α) (i : Nat) :
    (iterHalve k l).get? i = l.get? (2 ^ k * i) := by
  induction k generalizing l i with
  | zero => simp [iterHalve]
  | succ k ih =>
    have : 2 ^ (k + 1) * i = 2 * (2 ^ k * i) := by ring
    rw [iterHalve, ih, everySecond_get?, this]

theorem iterHalve_length (k : Nat) (l : List α) :
    (iterHalve k l).length = halveLen k l.length := by
  induction k generalizing l with
  | zero => rfl
  | succ k ih => rw [iterHalve, ih, everySecond_length, halveLen]

theorem iterHalve_ne_nil (k : Nat) (l : List α) (h : l ≠ []) : iterHalve k l ≠ [] := by
  induction k generalizing l with
  | zero => exact h
  | succ k ih => exact ih _ (everySecond_ne_nil l h)

/-- Main termination driver: with `limit ≥ 1`, fuel `n + 1` suffices whenever
`l.length ≤ n`, and the loop result is `iterHalve k l` for the number of
passes `k`, every pass before the last seeing a length above the limit and
the final length being at or below it. -/
theorem decimateFuel_spec (limit : Int) (hlim : 1 ≤ limit) :
    ∀ (n : Nat) (l : List α), l.length ≤ n →
      ∃ k res, decimateFuel (n + 1) limit l = some res ∧
        res = iterHalve k l ∧
        (∀ j < k, ((iterHalve j l).length : Int) > limit) ∧
        ((res.length : Int) ≤ limit) := by
  intro n
  induction n with
  | zero =>
    intro l hl
    refine ⟨0, l, ?_, rfl, by omega, ?_⟩
    · have : ¬ ((l.length : Int) > limit) := by omega
      simp [decimateFuel, this]
    · omega
  | succ n ih =>
    intro l hl
    by_cases hguard : (l.length : Int) > limit
    · have hlen2 : 2 ≤ l.length := by omega
      have hstep : (everySecond l).length ≤ n := by
        rw [everySecond_length]; omega
      obtain ⟨k, res, hrun, hres, hall, hfin⟩ := ih (everySecond l) hstep
      refine ⟨k + 1, res, ?_, hres, ?_, hfin⟩
      · simp only [decimateFuel, if_pos hguard]; exact hrun
      · intro j hj
        match j with
        | 0 => exact hguard
        | j + 1 => exact hall j (by omega)
    · exact ⟨0, l, by simp [decimateFuel, hguard], rfl, by omega, by omega⟩

/-- With a limit at most `0`, a non-empty list never leaves the loop: the
guard `len(rows) > limit` stays true and `rows[::2]` of a non-empty list is
non-empty. -/
theorem decimateFuel_diverges (limit : Int) (hlim : limit ≤ 0) :
    ∀ (fuel : Nat) (l : List α), l ≠ [] → decimateFuel fuel limit l = none := by
  intro fuel
  induction fuel with
  | zero => intro l _; rfl
  | succ fuel ih =>
    intro l hl
    have hpos : 0 < l.length := List.length_pos.mpr hl
    have hguard : (l.length : Int) > limit := by omega
    simp only [decimateFuel, if_pos hguard]
    exact ih (everySecond l) (everySecond_ne_nil l hl)


theorem keyEq_self (r : Row) : keyEq r.device r.timestamp r = true := by
  simp [keyEq]

theorem keyMem_iff_countKey_pos (db : List Row) (r : Row) :
    keyMem r db = true ↔ 0 < countKey db r.device r.timestamp := by
  simp [keyMem, countKey, List.any_eq_true, List.length_pos, List.filter_eq_nil_iff]

theorem countKey_append_single (db : List Row) (r : Row) (d : String) (t : Int) :
    countKey (db ++ [r]) d t = countKey db d t + (if keyEq d t r then 1 else 0) := by
  by_cases h : keyEq d t r <;> simp [countKey, List.filter_append, h]

theorem keyMem_insertOrIgnore_self (db : List Row) (r : Row) :
    keyMem r (insertOrIgnore db r) = true := by
  by_cases h : keyMem r db
  · simp [insertOrIgnore, h]
  · rw [insertOrIgnore, if_neg h, keyMem, List.any_append]
    simp [keyMem, keyEq_self]

theorem mem_insertOrIgnore (db : List Row) (r x : Row) (hx : x ∈ insertOrIgnore db r) :
    x ∈ db ∨ x = r := by
  by_cases h : keyMem r db
  · simp [insertOrIgnore, h] at hx; exact Or.inl hx
  · simp [insertOrIgnore, h] at hx
    exact hx

theorem mem_insertMany (data db : List Row) (x : Row) (hx : x ∈ insertMany db data) :
    x ∈ db ∨ x ∈ data := by
  induction data generalizing db with
  | nil => exact Or.inl hx
  | cons d ds ih =>
    have : insertMany db (d :: ds) = insertMany (insertOrIgnore db d) ds := rfl
    rw [this] at hx
    rcases ih (insertOrIgnore db d) hx with h | h
    · rcases mem_insertOrIgnore db d x h with h' | h'
      · exact Or.inl h'
      · exact Or.inr (by simp [h'])
    · exact Or.inr (by simp [h])

theorem mem_buildData_co2 (deviceName : String) (history : List Entry) (x : Row)
    (hx : x ∈ buildData deviceName history) : 0 ≤ x.co2 := by
  simp only [buildData, List.mem_filterMap] at hx
  obtain ⟨e, _, he⟩ := hx
  by_cases hneg : e.co2 < 0
  · simp [hneg] at he
  · simp only [hneg, if_false, Option.some.injEq] at he
    subst he
    simp [mkRow]
    omega

theorem foldl_max_some (ts : List Int) (m : Int) :
    ∃ x, ts.foldl (fun acc t => match acc with
        | none => some t
        | some m => some (max m t)) (some m) = some x ∧
      (x = m ∨ x ∈ ts) ∧ m ≤ x ∧ ∀ t ∈ ts, t ≤ x := by
  induction ts generalizing m with
  | nil => exact ⟨m, rfl, Or.inl rfl, le_refl m, by simp⟩
  | cons t ts ih =>
    obtain ⟨x, hx, hmem, hle, hall⟩ := ih (max m t)
    refine ⟨x, hx, ?_, le_trans (le_max_left m t) hle, ?_⟩
    · rcases hmem with h | h
      · rcases max_choice m t with hc | hc
        · exact Or.inl (h.trans hc)
        · exact Or.inr (by simp [h, hc])
      · exact Or.inr (by simp [h])
    · intro u hu
      rcases List.mem_cons.mp hu with h | h
      · exact h ▸ le_trans (le_max_right m t) hle
      · exact hall u h

theorem retryAux_all_err (outcomes : Nat → FetchOutcome) (msgs : Nat → String) :
    ∀ (rem i : Nat) (errors : List String),
      (∀ j < rem, outcomes (i + j) = .err (msgs (i + j))) →
      retryAux outcomes rem i errors =
        (none, errors ++ (List.range rem).map (fun j => msgs (i + j))) := by
  intro rem
  induction rem with
  | zero => intro i errors _; simp [retryAux]
  | succ rem ih =>
    intro i errors h
    have h0 : outcomes i = .err (msgs i) := by
      have := h 0 (Nat.succ_pos rem)
      simpa using this
    have hrec := ih (i + 1) (errors ++ [msgs i]) (fun j hj => by
      have := h (j + 1) (by omega)
      have harg : i + (j + 1) = i + 1 + j := by omega
      rw [harg] at this
      exact this)
    have hmap : (List.range rem).map (fun j => msgs (i + 1 + j))
        = (List.range rem).map (fun j => msgs (i + (j + 1))) := by
      apply List.map_congr_left
      intro a _
      congr 1
      omega
    simp only [retryAux, h0]
    rw [hrec, hmap, List.range_succ_eq_map]
    simp [List.map_map, List.append_assoc, Function.comp]

theorem joinErrors_cons2 (a b : String) (rest : List String) :
    joinErrors (a :: b :: rest) = a ++ "\n\n" ++ joinErrors (b :: rest) := rfl

theorem joinErrors_contains (errors : List String) (e : String) (he : e ∈ errors) :
    ∃ p q, (joinErrors errors).data = p ++ (e.data ++ q) := by
  induction errors with
  | nil => simp at he
  | cons a rest ih =>
    cases rest with
    | nil =>
      have : e = a := by simpa using he
      subst this
      exact ⟨[], [], by simp [joinErrors]⟩
    | cons b rest' =>
      rcases List.mem_cons.mp he with h | h
      · subst h
        refine ⟨[], ("\n\n" ++ joinErrors (b :: rest')).data, ?_⟩
        rw [joinErrors_cons2]
        simp [String.data_append, List.append_assoc]
      · obtain ⟨p, q, hpq⟩ := ih h
        refine ⟨(a ++ "\n\n").data ++ p, q, ?_⟩
        rw [joinErrors_cons2]
        simp only [String.data_append, List.append_assoc]
        rw [hpq]

/-- C2: for every database state satisfying the primary-key invariant at the
key of `r` and every measurement row `r`, inserting `r` twice with
`INSERT OR IGNORE` leaves exactly one row with `r`'s `(device, timestamp)`
key, and the second insert is a silent no-op (it returns the unchanged
table, raising nothing): ingestion is idempotent in the
`(device, timestamp)` key, both across calls and inside one
`executemany` batch. -/
theorem insert_same_key_twice_C2 (db : List Row) (r : Row)
    (h : countKey db r.device r.timestamp ≤ 1) :
    insertOrIgnore (insertOrIgnore db r) r = insertOrIgnore db r ∧
    countKey (insertOrIgnore (insertOrIgnore db r) r) r.device r.timestamp = 1 ∧
    insertMany db [r, r] = insertOrIgnore db r := by
  have hnoop : insertOrIgnore (insertOrIgnore db r) r = insertOrIgnore db r := by
    conv_lhs => rw [insertOrIgnore]
    rw [if_pos (keyMem_insertOrIgnore_self db r)]
  refine ⟨hnoop, ?_, ?_⟩
  · rw [hnoop]
    by_cases hm : keyMem r db
    · have h1 : insertOrIgnore db r = db := by simp [insertOrIgnore, hm]
      rw [h1]
      have := (keyMem_iff_countKey_pos db r).mp hm
      omega
    · have h0 : countKey db r.device r.timestamp = 0 := by
        by_contra hne
        exact hm ((keyMem_iff_countKey_pos db r).mpr (Nat.pos_of_ne_zero hne))
      have h1 : insertOrIgnore db r = db ++ [r] := by simp [insertOrIgnore, hm]
      rw [h1, countKey_append_single]
      simp [keyEq_self, h0]
  · have h2 : insertMany db [r, r] = insertOrIgnore (insertOrIgnore db r) r := rfl
    rw [h2, hnoop]

/-- Witness for C2: a concrete empty table and a concrete row. -/
theorem insert_same_key_twice_C2_witness :
    countKey [] wRow.device wRow.timestamp ≤ 1 ∧
    (insertOrIgnore (insertOrIgnore [] wRow) wRow = insertOrIgnore [] wRow ∧
     countKey (insertOrIgnore (insertOrIgnore [] wRow) wRow) wRow.device wRow.timestamp = 1 ∧
     insertMany [] [wRow, wRow] = insertOrIgnore [] wRow) :=
  ⟨by decide, insert_same_key_twice_C2 [] wRow (by decide)⟩

/-- C3: for every fetched history, `fetch_new_data` never inserts a row with
a negative CO2 value: every history entry with `co2 < 0` is dropped before
the database write, so a table whose rows all have `co2 ≥ 0` still has only
rows with `co2 ≥ 0` after any run of the ingestion (the only writer of the
table), whether the BLE fetch succeeded or failed. -/
theorem ingestion_nonneg_co2_C3 (db : List Row)
    (deviceName deviceMac rangeStart rangeEnd : String)
    (outcomes : Nat → FetchOutcome) (numRetries : Nat)
    (h : ∀ r ∈ db, 0 ≤ r.co2) :
    (∀ r ∈ (fetch_new_data db deviceName deviceMac rangeStart rangeEnd outcomes numRetries).1,
        0 ≤ r.co2) ∧
    ∀ (name : String) (history : List Entry), ∀ r ∈ buildData name history, 0 ≤ r.co2 := by
  constructor
  · intro r hr
    rw [fetch_new_data] at hr
    rcases hres : retryAux outcomes numRetries 0 [] with ⟨op, errs⟩
    rw [hres] at hr
    cases op with
    | none => exact h r hr
    | some history =>
      simp only at hr
      rcases mem_insertMany _ _ _ hr with h' | h'
      · exact h r h'
      · exact mem_buildData_co2 _ _ _ h'
  · intro name history r hr
    exact mem_buildData_co2 _ _ _ hr

/-- Witness for C3: a concrete empty table and a two-entry history whose
first entry carries the sentinel CO2 value `-1`. -/
theorem ingestion_nonneg_co2_C3_witness :
    (∀ r ∈ ([] : List Row), 0 ≤ r.co2) ∧
    ((∀ r ∈ (fetch_new_data [] "kitchen" "AA:BB:CC" "beginning" "2025-01-01T00:00:00+00:00"
        (fun _ => FetchOutcome.ok [⟨0, 21, 40, 1000, -1⟩, ⟨60, 21, 40, 1000, 500⟩]) 3).1,
        0 ≤ r.co2) ∧
     ∀ (name : String) (history : List Entry), ∀ r ∈ buildData name history, 0 ≤ r.co2) :=
  ⟨by simp, ingestion_nonneg_co2_C3 [] "kitchen" "AA:BB:CC" "beginning"
    "2025-01-01T00:00:00+00:00"
    (fun _ => FetchOutcome.ok [⟨0, 21, 40, 1000, -1⟩, ⟨60, 21, 40, 1000, 500⟩]) 3 (by simp)⟩

/-- C4: for every database state and device name, `get_last_timestamp`
returns the maximum timestamp among the device's rows when the device has
at least one row, and `none` (the SQL `NULL` of `MAX` over an empty set)
when it has none.  (The Python function re-presents the returned epoch
second as a timezone-aware datetime, which is injective and monotone.) -/
theorem get_last_timestamp_C4 (db : List Row) (deviceName : String) :
    (deviceTimestamps db deviceName = [] → get_last_timestamp db deviceName = none) ∧
    (deviceTimestamps db deviceName ≠ [] →
      ∃ m, get_last_timestamp db deviceName = some m ∧
        m ∈ deviceTimestamps db deviceName ∧
        ∀ t ∈ deviceTimestamps db deviceName, t ≤ m) := by
  constructor
  · intro h
    rw [get_last_timestamp, sqlMaxTimestamp, h]
    rfl
  · intro h
    obtain ⟨t, ts, hts⟩ : ∃ t ts, deviceTimestamps db deviceName = t :: ts := by
      cases hL : deviceTimestamps db deviceName with
      | nil => exact absurd hL h
      | cons t ts => exact ⟨t, ts, rfl⟩
    rw [get_last_timestamp, sqlMaxTimestamp, hts]
    obtain ⟨x, hx, hmem, hle, hall⟩ := foldl_max_some ts t
    refine ⟨x, ?_, ?_, ?_⟩
    · rw [List.foldl_cons]
      exact hx
    · rcases hmem with h' | h'
      · simp [h']
      · simp [h']
    · intro u hu
      rcases List.mem_cons.mp hu with h' | h'
      · exact h' ▸ hle
      · exact hall u h'

/-- Witness for C4: a concrete three-row table, queried for a device with
rows (maximum 300) and a device without rows. -/
theorem get_last_timestamp_C4_witness :
    deviceTimestamps wdbStamps "kitchen" ≠ [] ∧
    (∃ m, get_last_timestamp wdbStamps "kitchen" = some m ∧
      m ∈ deviceTimestamps wdbStamps "kitchen" ∧
      ∀ t ∈ deviceTimestamps wdbStamps "kitchen", t ≤ m) ∧
    deviceTimestamps wdbStamps "bedroom" = [] ∧
    get_last_timestamp wdbStamps "bedroom" = none :=
  ⟨by decide, (get_last_timestamp_C4 wdbStamps "kitchen").2 (by decide), by decide,
    (get_last_timestamp_C4 wdbStamps "bedroom").1 (by decide)⟩

/-- C5: when every BLE fetch attempt raises, `fetch_new_data` makes exactly
the configured number of attempts (`num_retries`, default 3), accumulates
each attempt's error message, performs no database write (the table is
returned unchanged), and returns — rather than raises — a failure report
that textually contains the device name, the device address, both ends of
the attempted time range, and every collected error message. -/
theorem fetch_all_attempts_fail_C5 (db : List Row)
    (deviceName deviceMac rangeStart rangeEnd : String)
    (outcomes : Nat → FetchOutcome) (msgs : Nat → String) (numRetries : Nat)
    (h : ∀ i < numRetries, outcomes i = .err (msgs i)) :
    fetch_new_data db deviceName deviceMac rangeStart rangeEnd outcomes numRetries =
      (db, failureReport deviceName deviceMac rangeStart rangeEnd
        ((List.range numRetries).map msgs)) ∧
    ((List.range numRetries).map msgs).length = numRetries ∧
    ∀ piece ∈ [deviceName, deviceMac, rangeStart, rangeEnd]
        ++ (List.range numRetries).map msgs,
      ∃ p q, (failureReport deviceName deviceMac rangeStart rangeEnd
        ((List.range numRetries).map msgs)).data = p ++ (piece.data ++ q) := by
  have hrun : retryAux outcomes numRetries 0 [] =
      (none, (List.range numRetries).map msgs) := by
    have := retryAux_all_err outcomes msgs numRetries 0 []
      (fun j hj => by simpa using h j (by omega))
    simpa using this
  refine ⟨?_, by simp, ?_⟩
  · rw [fetch_new_data, hrun]
  · intro piece hpiece
    simp only [List.cons_append, List.nil_append, List.mem_cons] at hpiece
    rcases hpiece with h1 | h2 | h3 | h4 | herr
    · subst h1
      exact ⟨"Failed to fetch measurements from '".data,
        ("' with mac '" ++ deviceMac ++ " in range: (" ++ rangeStart ++ ", " ++ rangeEnd
          ++ ")\n" ++ "\n" ++ "# Errors\n"
          ++ joinErrors ((List.range numRetries).map msgs)).data,
        by simp [failureReport, String.data_append, List.append_assoc]⟩
    · subst h2
      exact ⟨("Failed to fetch measurements from '" ++ deviceName ++ "' with mac '").data,
        (" in range: (" ++ rangeStart ++ ", " ++ rangeEnd ++ ")\n" ++ "\n" ++ "# Errors\n"
          ++ joinErrors ((List.range numRetries).map msgs)).data,
        by simp [failureReport, String.data_append, List.append_assoc]⟩
    · subst h3
      exact ⟨("Failed to fetch measurements from '" ++ deviceName ++ "' with mac '"
          ++ deviceMac ++ " in range: (").data,
        (", " ++ rangeEnd ++ ")\n" ++ "\n" ++ "# Errors\n"
          ++ joinErrors ((List.range numRetries).map msgs)).data,
        by simp [failureReport, String.data_append, List.append_assoc]⟩
    · subst h4
      exact ⟨("Failed to fetch measurements from '" ++ deviceName ++ "' with mac '"
          ++ deviceMac ++ " in range: (" ++ rangeStart ++ ", ").data,
        (")\n" ++ "\n" ++ "# Errors\n"
          ++ joinErrors ((List.range numRetries).map msgs)).data,
        by simp [failureReport, String.data_append, List.append_assoc]⟩
    · obtain ⟨p, q, hpq⟩ := joinErrors_contains _ piece herr
      refine ⟨("Failed to fetch measurements from '" ++ deviceName ++ "' with mac '"
          ++ deviceMac ++ " in range: (" ++ rangeStart ++ ", " ++ rangeEnd
          ++ ")\n" ++ "\n" ++ "# Errors\n").data ++ p, q, ?_⟩
      simp only [failureReport, String.data_append, List.append_assoc]
      rw [hpq]

/-- Witness for C5: three attempts, all failing with a concrete message. -/
theorem fetch_all_attempts_fail_C5_witness :
    (∀ i < 3, (fun _ => FetchOutcome.err "BleakError: device not found") i
        = FetchOutcome.err ((fun _ => "BleakError: device not found") i)) ∧
    (fetch_new_data wdbStamps "kitchen" "AA:BB:CC" "beginning" "2025-01-01T00:00:00+00:00"
        (fun _ => FetchOutcome.err "BleakError: device not found") 3 =
      (wdbStamps, failureReport "kitchen" "AA:BB:CC" "beginning" "2025-01-01T00:00:00+00:00"
        ((List.range 3).map (fun _ => "BleakError: device not found"))) ∧
     ((List.range 3).map (fun _ => "BleakError: device not found")).length = 3 ∧
     ∀ piece ∈ ["kitchen", "AA:BB:CC", "beginning", "2025-01-01T00:00:00+00:00"]
         ++ (List.range 3).map (fun _ => "BleakError: device not found"),
       ∃ p q, (failureReport "kitchen" "AA:BB:CC" "beginning" "2025-01-01T00:00:00+00:00"
         ((List.range 3).map (fun _ => "BleakError: device not found"))).data
           = p ++ (piece.data ++ q)) :=
  ⟨fun _ _ => rfl,
    fetch_all_attempts_fail_C5 wdbStamps "kitchen" "AA:BB:CC" "beginning"
      "2025-01-01T00:00:00+00:00" (fun _ => FetchOutcome.err "BleakError: device not found")
      (fun _ => "BleakError: device not found") 3 (fun _ _ => rfl)⟩

/-- C1: for every time-range query (with a valid date range, a valid
selector, at least one matching row, and a positive limit) the result rows
are obtained from the matching rows by repeatedly keeping every second row
(indices 0, 2, 4, ...) until the length is at or below the limit — each
earlier pass sees a length above the limit — and in particular for 401
matching rows and limit 100 the loop runs exactly 3 passes through lengths
401, 201, 101, 51.  The result is a function of the selected row list, hence
deterministic in the input row ordering. -/
theorem timerange_decimation_C1
    (parse : String → Option Int) (db : List Row) (startText endText : String)
    (limit s e : Int)
    (hs : parse startText = some s) (he : parse endText = some e)
    (hlim : 1 ≤ limit) (hne : rowsInRange db s e ≠ []) :
    ∃ k res,
      get_data_by_timerange parse db startText endText "all" limit = .ok res ∧
      res = iterHalve k (rowsInRange db s e) ∧
      (∀ j < k, ((iterHalve j (rowsInRange db s e)).length : Int) > limit) ∧
      ((res.length : Int) ≤ limit) ∧
      ((rowsInRange db s e).length = 401 → limit = 100 →
        k = 3 ∧ (everySecond (rowsInRange db s e)).length = 201 ∧
        (everySecond (everySecond (rowsInRange db s e))).length = 101 ∧
        res.length = 51) := by
  obtain ⟨k, res, hrun, hres, hall, hfin⟩ :=
    decimateFuel_spec limit hlim (rowsInRange db s e).length (rowsInRange db s e) le_rfl
  refine ⟨k, res, ?_, hres, hall, hfin, ?_⟩
  · have hsan : sanitizeRaises "all" = false := by decide
    have hie : (rowsInRange db s e).isEmpty = false := by
      cases hh : rowsInRange db s e with
      | nil => exact absurd hh hne
      | cons a l => rfl
    rw [get_data_by_timerange, hs, he]
    simp only [hsan, Bool.false_eq_true, if_false, hie, hrun]
  · intro h401 h100
    subst h100
    have hlenk : res.length = halveLen k 401 := by
      rw [hres, iterHalve_length, h401]
    rcases k with _ | _ | _ | _ | k
    · rw [hlenk, show halveLen 0 401 = 401 from rfl] at hfin
      omega
    · rw [hlenk, show halveLen 1 401 = 201 from rfl] at hfin
      omega
    · rw [hlenk, show halveLen 2 401 = 101 from rfl] at hfin
      omega
    · refine ⟨rfl, ?_, ?_, ?_⟩
      · rw [everySecond_length, h401]
      · rw [everySecond_length, everySecond_length, h401]
      · rw [hlenk]
        rfl
    · exfalso
      have h3 := hall 3 (by omega)
      rw [show (3 : Nat) = 2 + 1 from rfl] at h3
      rw [iterHalve_length, h401] at h3
      norm_num [halveLen] at h3

set_option maxRecDepth 40000 in
/-- Witness for C1: a 401-row table whose rows all match the window, with
limit 100 and an all-accepting parser stub. -/
theorem timerange_decimation_C1_witness :
    wParseAll "2025-05-08T00:00:00" = some 0 ∧
    wParseAll "2025-05-12T00:00:00" = some 0 ∧
    (1 : Int) ≤ 100 ∧
    rowsInRange wdb401 0 0 ≠ [] ∧
    (∃ k res,
      get_data_by_timerange wParseAll wdb401 "2025-05-08T00:00:00" "2025-05-12T00:00:00"
        "all" 100 = .ok res ∧
      res = iterHalve k (rowsInRange wdb401 0 0) ∧
      (∀ j < k, ((iterHalve j (rowsInRange wdb401 0 0)).length : Int) > 100) ∧
      ((res.length : Int) ≤ 100) ∧
      ((rowsInRange wdb401 0 0).length = 401 → (100 : Int) = 100 →
        k = 3 ∧ (everySecond (rowsInRange wdb401 0 0)).length = 201 ∧
        (everySecond (everySecond (rowsInRange wdb401 0 0))).length = 101 ∧
        res.length = 51)) :=
  ⟨rfl, rfl, by omega, by decide,
    timerange_decimation_C1 wParseAll wdb401 "2025-05-08T00:00:00" "2025-05-12T00:00:00"
      100 0 0 rfl rfl (by omega) (by decide)⟩

/-- C9: for every non-empty matching row list, the decimation loop of the
time-range query terminates exactly when the limit is at least 1.  With a
limit at most 0 the guard `len(rows) > limit` can never become false
(`rows[::2]` of a one-element list is that same list, and of any non-empty
list is non-empty), so no amount of fuel makes the loop exit. -/
theorem decimation_termination_C9 (rows : List Row) (limit : Int) (hne : rows ≠ []) :
    ((∃ fuel res, decimateFuel fuel limit rows = some res) ↔ 1 ≤ limit) ∧
    ∀ r : Row, everySecond [r] = [r] := by
  constructor
  · constructor
    · rintro ⟨fuel, res, hres⟩
      by_contra hlim
      have hle : limit ≤ 0 := by omega
      rw [decimateFuel_diverges limit hle fuel rows hne] at hres
      exact Option.noConfusion hres
    · intro hlim
      obtain ⟨k, res, hrun, -, -, -⟩ := decimateFuel_spec limit hlim rows.length rows le_rfl
      exact ⟨rows.length + 1, res, hrun⟩
  · intro r
    rfl

/-- Witness for C9: a concrete non-empty three-row list. -/
theorem decimation_termination_C9_witness :
    twoDeviceDb ≠ [] ∧
    (((∃ fuel res, decimateFuel fuel 0 twoDeviceDb = some res) ↔ (1 : Int) ≤ 0) ∧
      ∀ r : Row, everySecond [r] = [r]) :=
  ⟨by decide, decimation_termination_C9 twoDeviceDb 0 (by decide)⟩

/-- C10: for every row list and every limit at least 1, the decimated result
keeps the first (chronologically earliest, in the ascending retrieval order)
row as its first element, and the row at output position `i` is the input
row at original index `2 ^ k * i` — an index divisible by `2 ^ k` — where
`k` is the number of halving passes performed. -/
theorem decimation_stride_C10 (rows : List Row) (limit : Int) (hlim : 1 ≤ limit) :
    ∃ k res, decimateFuel (rows.length + 1) limit rows = some res ∧
      res = iterHalve k rows ∧
      res.head? = rows.head? ∧
      ∀ i, res.get? i = rows.get? (2 ^ k * i) := by
  obtain ⟨k, res, hrun, hres, -, -⟩ := decimateFuel_spec limit hlim rows.length rows le_rfl
  have hget : ∀ i, res.get? i = rows.get? (2 ^ k * i) := by
    intro i
    rw [hres, iterHalve_get?]
  refine ⟨k, res, hrun, hres, ?_, hget⟩
  have hhead : ∀ (l : List Row), l.get? 0 = l.head? := fun l => by cases l <;> rfl
  rw [← hhead res, ← hhead rows, hget 0, Nat.mul_zero]

/-- Witness for C10: the concrete three-row list with limit 1. -/
theorem decimation_stride_C10_witness :
    (1 : Int) ≤ 1 ∧
    (∃ k res, decimateFuel (twoDeviceDb.length + 1) 1 twoDeviceDb = some res ∧
      res = iterHalve k twoDeviceDb ∧
      res.head? = twoDeviceDb.head? ∧
      ∀ i, res.get? i = twoDeviceDb.get? (2 ^ k * i)) :=
  ⟨by omega, decimation_stride_C10 twoDeviceDb 1 (by omega)⟩

/-- C8: neither query's `WHERE` clause constrains the `device` column — a
row of any device is selected by the time-range query exactly when its
timestamp lies in the inclusive window, and every row returned by the
recent-data query is constrained only by its timestamp — so on a table with
rows of several devices the returned rows combine (and can interleave) all
devices, as the concrete two-device instances show for both queries. -/
theorem queries_cross_device_C8 :
    (∀ (db : List Row) (s e : Int) (r : Row),
        r ∈ rowsInRange db s e ↔ r ∈ db ∧ s ≤ r.timestamp ∧ r.timestamp ≤ e) ∧
    (∀ (db : List Row) (now : Int) (limit : Nat) (r : Row),
        r ∈ rowsRecent db now limit → r ∈ db ∧ r.timestamp ≤ now) ∧
    rowsInRange twoDeviceDb 0 300 = twoDeviceDb ∧
    rowsRecent twoDeviceDb 300 20 =
      [⟨"kitchen", 200, 21, 40, 1000, 999⟩,
       ⟨"bedroom", 150, 20, 45, 1001, 420⟩,
       ⟨"kitchen", 100, 19, 50, 1002, 400⟩] := by
  refine ⟨?_, ?_, by decide, by decide⟩
  · intro db s e r
    rw [rowsInRange, List.mem_insertionSort byTimestampAsc, List.mem_filter]
    simp
  · intro db now limit r hr
    rw [rowsRecent] at hr
    have h1 := List.mem_of_mem_take hr
    rw [List.mem_insertionSort byTimestampDesc, List.mem_filter] at h1
    simpa using h1

/-- Witness for C8: the bedroom row is returned by the recent-data query of
a table that also holds kitchen rows. -/
theorem queries_cross_device_C8_witness :
    (⟨"bedroom", 150, 20, 45, 1001, 420⟩ : Row) ∈ rowsRecent twoDeviceDb 300 20 ∧
    ((⟨"bedroom", 150, 20, 45, 1001, 420⟩ : Row) ∈ twoDeviceDb ∧
      (⟨"bedroom", 150, 20, 45, 1001, 420⟩ : Row).timestamp ≤ 300) :=
  ⟨by decide,
    queries_cross_device_C8.2.1 twoDeviceDb 300 20 ⟨"bedroom", 150, 20, 45, 1001, 420⟩
      (by decide)⟩

/-- C7: a time-range query whose start or end date-time text fails to parse
raises `InvalidDateFormat` (outcome `invalidDate`), a kind distinct both
from the no-matching-rows outcome (`noData`, the `return None` that the
server turns into its no-data report) and from the invalid-sensor outcome
(`invalidSensor`).  Parsing happens before the selector check and before the
row query, so the parse error wins regardless of the other arguments. -/
theorem timerange_parse_error_C7 (parse : String → Option Int) (db : List Row)
    (startText endText sensors : String) (limit : Int)
    (h : parse startText = none ∨ parse endText = none) :
    (∃ t, get_data_by_timerange parse db startText endText sensors limit
        = .invalidDate t) ∧
    (∀ t, (TimerangeOutcome.invalidDate t) ≠ TimerangeOutcome.noData) ∧
    (∀ t u, (TimerangeOutcome.invalidDate t) ≠ TimerangeOutcome.invalidSensor u) := by
  refine ⟨?_, fun t h' => TimerangeOutcome.noConfusion h',
    fun t u h' => TimerangeOutcome.noConfusion h'⟩
  cases hps : parse startText with
  | none => exact ⟨startText, by rw [get_data_by_timerange, hps]⟩
  | some s =>
    cases hpe : parse endText with
    | none => exact ⟨endText, by rw [get_data_by_timerange, hps, hpe]⟩
    | some e =>
      rcases h with h | h
      · rw [hps] at h
        exact Option.noConfusion h
      · rw [hpe] at h
        exact Option.noConfusion h

/-- Witness for C7: a parser stub rejecting the text, applied to the
malformed text of the spec's example. -/
theorem timerange_parse_error_C7_witness :
    (wParseNone "not-a-date" = none ∨ wParseNone "2025-05-12T00:00:00" = none) ∧
    ((∃ t, get_data_by_timerange wParseNone twoDeviceDb "not-a-date" "2025-05-12T00:00:00"
        "all" 100 = .invalidDate t) ∧
     (∀ t, (TimerangeOutcome.invalidDate t) ≠ TimerangeOutcome.noData) ∧
     (∀ t u, (TimerangeOutcome.invalidDate t) ≠ TimerangeOutcome.invalidSensor u)) :=
  ⟨Or.inl rfl,
    timerange_parse_error_C7 wParseNone twoDeviceDb "not-a-date" "2025-05-12T00:00:00"
      "all" 100 (Or.inl rfl)⟩

/-- C6 (refuting the claim as stated, at the current tool layer): for the
selector "ozone" — indeed for every argument — both src/server.py query tool
handlers raise `AttributeError` out of the handler body instead of
returning the invalid-selector report, because their first statements call
`aranet4manager.validate_sensors` resp. `aranet4manager.list_sensors` and
`class Aranet4Manager` defines no attribute of either name (it defines
`sanitize_sensors`).  The selector logic itself does classify "ozone" as
invalid and accepts valid selectors, which is what the claim describes and
the unreachable report branch intends. -/
theorem sensor_selector_C6_bug :
    get_recent_data_tool 20 "ozone" false = .exn "AttributeError" ∧
    get_data_by_timerange_tool "2025-05-08T00:00:00" "2025-05-12T00:00:00" "ozone" 100 false
      = .exn "AttributeError" ∧
    ("validate_sensors" ∈ managerAttrs ↔ False) ∧
    ("list_sensors" ∈ managerAttrs ↔ False) ∧
    sanitizeRaises "ozone" = true ∧
    sanitizeRaises "all" = false ∧
    sanitizeRaises " co2 , temperature" = false ∧
    get_data_by_timerange wParseAll twoDeviceDb "2025-05-08T00:00:00" "2025-05-12T00:00:00"
      "ozone" 100 = .invalidSensor "ozone" := by
  decide
